import Mathlib

/-!
Verification of the lecture-scheduler allocation engine (src/scheduler.js).

The engine is embedded shallowly:
* JS objects keyed by `"day.period"` strings become association lists keyed by
  a `Slot` structure (the day/period pair the key string encodes); `for..in`
  enumeration order of such string keys is insertion order, which the
  association-list order preserves.
* The mutable `schedule` / `periods` pair threaded through `assign` becomes an
  explicit `AState` value.
* JS exceptions (accessing `schedule[slot]` when `slot` is not a key) become
  `Except String`; the `try`/`catch` in `scheduler` becomes a `match` on the
  `Except` result.
-/

namespace LectureScheduler

/-- A `(day, period)` coordinate; stands for the `"day.period"` key strings of
`scheduler.js` (`TimeSlot` class, lines 2-7, and the keys built at line 30). -/
structure Slot where
  day : Nat
  period : Nat
deriving DecidableEq

/-- The `Course` class of scheduler.js (lines 10-21).  The JS `Set` for
sections is modelled as a list used only through membership tests; `prefs`
holds the parsed `"day.period"` tokens. -/
structure Course where
  id : Nat
  name : String
  teacher : String
  sections : List String
  lectures : Nat
  priority : Nat
  prefs : List Slot
  conflicts : Nat
deriving DecidableEq

/-- `conflict(course1, course2)` of scheduler.js lines 109-112:
same teacher, or some section of `course1` is a section of `course2`. -/
def conflict (c1 c2 : Course) : Bool :=
  c1.teacher == c2.teacher ||
    c1.sections.any (fun s => decide (s ∈ c2.sections))

/-- The schedule object: ordered association list from slot to occupancy,
in the creation order of line 28-32 (period outer, day inner). -/
abbrev Schedule := List (Slot × List Course)

/-- The unavailability object: association list from teacher to slot list. -/
abbrev Unavail := List (String × List Slot)

/-- JS property read `schedule[slot]`: first entry whose key equals `slot`. -/
def lookupSlot : Schedule → Slot → Option (List Course)
  | [], _ => none
  | e :: rest, s => if e.1 = s then some e.2 else lookupSlot rest s

/-- JS property read `unavail[t]` on the unavailability object. -/
def lookupTeacher : Unavail → String → Option (List Slot)
  | [], _ => none
  | e :: rest, t => if e.1 = t then some e.2 else lookupTeacher rest t

/-- The test `unavail && unavail[course.teacher] && unavail[course.teacher].includes(slot)`
of scheduler.js line 70 (an array is truthy even when empty, so the middle
conjunct is exactly key-presence). -/
def unavailHas (unavail : Option Unavail) (t : String) (slot : Slot) : Bool :=
  match unavail with
  | none => false
  | some u =>
    match lookupTeacher u t with
    | none => false
    | some slots => decide (slot ∈ slots)

/-- `schedule[slot].push(course)` (line 74): the occupancy list of `slot`
gains `course` at its end; every other entry is unchanged. -/
def updateSlot (sched : Schedule) (slot : Slot) (c : Course) : Schedule :=
  sched.map (fun e => if e.1 = slot then (e.1, e.2 ++ [c]) else e)

/-- The mutable state closed over by `assign` (lines 64-77):
the schedule object and the running `periods` maximum. -/
structure AState where
  schedule : Schedule
  periods : Nat
deriving DecidableEq

/-- Message for the exception raised by `schedule[slot].length` when
`schedule[slot]` is `undefined` (line 69). -/
def lengthErrMsg : String := "Cannot read length of undefined"

/-- Message for the exception raised by `for (let scheduled of schedule[slot])`
when `schedule[slot]` is `undefined` (line 71). -/
def iterErrMsg : String := "undefined is not iterable"

/-- `assign(course, slot)` of scheduler.js lines 68-77.  The three checks run
in source order: room capacity (line 69, only when `rooms` is truthy, i.e.
present and nonzero; reading `.length` of a missing key throws), teacher
unavailability (line 70, throws nothing), the conflict loop over the slot's
occupants (lines 71-73, iterating a missing key throws).  On success the
course is pushed and `periods` is raised to the slot's period (lines 74-75).
The embedding matches on key presence first; each branch keeps the JS check
order and the point at which the missing-key exception fires. -/
def assign (rooms : Option Nat) (unavail : Option Unavail) (st : AState)
    (c : Course) (slot : Slot) : Except String (Bool × AState) :=
  match lookupSlot st.schedule slot with
  | none =>
    if rooms.getD 0 ≠ 0 then Except.error lengthErrMsg
    else if unavailHas unavail c.teacher slot then Except.ok (false, st)
    else Except.error iterErrMsg
  | some occ =>
    if rooms.getD 0 ≠ 0 ∧ occ.length = rooms.getD 0 then Except.ok (false, st)
    else if unavailHas unavail c.teacher slot then Except.ok (false, st)
    else if occ.any (fun sc => conflict c sc) then Except.ok (false, st)
    else Except.ok (true,
      { schedule := updateSlot st.schedule slot c
        periods := max st.periods slot.period })

/-- Phase 1 of the per-course loop (lines 82-89): walk `course.prefs` in
order, counting successful assignments in `allotted`, and stop as soon as
`allotted >= course.lectures` right after a success.  (The JS guard
`if (course.prefs.length > 0)` is redundant: an empty walk does nothing.) -/
def allocPrefs (rooms : Option Nat) (unavail : Option Unavail) (c : Course) :
    List Slot → Nat → AState → Except String (Nat × AState)
  | [], allotted, st => Except.ok (allotted, st)
  | slot :: rest, allotted, st =>
    match assign rooms unavail st c slot with
    | Except.error e => Except.error e
    | Except.ok (true, st') =>
      if allotted + 1 ≥ c.lectures then Except.ok (allotted + 1, st')
      else allocPrefs rooms unavail c rest (allotted + 1) st'
    | Except.ok (false, st') => allocPrefs rooms unavail c rest allotted st'

/-- Phase 2 of the per-course loop (lines 91-100): walk the schedule's keys
in creation order, skipping keys listed in `course.prefs`, with the same
counting and early stop as phase 1. -/
def allocOthers (rooms : Option Nat) (unavail : Option Unavail) (c : Course) :
    List Slot → Nat → AState → Except String (Nat × AState)
  | [], allotted, st => Except.ok (allotted, st)
  | slot :: rest, allotted, st =>
    if slot ∈ c.prefs then allocOthers rooms unavail c rest allotted st
    else
      match assign rooms unavail st c slot with
      | Except.error e => Except.error e
      | Except.ok (true, st') =>
        if allotted + 1 ≥ c.lectures then Except.ok (allotted + 1, st')
        else allocOthers rooms unavail c rest (allotted + 1) st'
      | Except.ok (false, st') => allocOthers rooms unavail c rest allotted st'

/-- One iteration of the `for (let course of courses)` body (lines 79-100):
phase 1 over preferences, then phase 2 over the grid keys when still short.
Returns the final `allotted` count together with the state. -/
def assignOne (rooms : Option Nat) (unavail : Option Unavail) (st : AState)
    (c : Course) : Except String (Nat × AState) :=
  match allocPrefs rooms unavail c c.prefs 0 st with
  | Except.error e => Except.error e
  | Except.ok (allotted, st1) =>
    if allotted < c.lectures then
      allocOthers rooms unavail c (st1.schedule.map Prod.fst) allotted st1
    else Except.ok (allotted, st1)

/-- The whole course loop of `assignCourses` (lines 79-105), threading the
state and accumulating the `unassigned` list (line 102-104). -/
def assignList (rooms : Option Nat) (unavail : Option Unavail) :
    List Course → AState → List Course → Except String (AState × List Course)
  | [], st, unassigned => Except.ok (st, unassigned)
  | c :: rest, st, unassigned =>
    match assignOne rooms unavail st c with
    | Except.error e => Except.error e
    | Except.ok (allotted, st') =>
      assignList rooms unavail rest st'
        (if allotted < c.lectures then unassigned ++ [c] else unassigned)

/-- `assignCourses(courses, schedule, rooms, unavail)` of lines 64-107:
runs the loop from `periods = 0` and an empty unassigned list and returns
`[schedule, periods, unassigned]`. -/
def assignCourses (courses : List Course) (schedule : Schedule)
    (rooms : Option Nat) (unavail : Option Unavail) :
    Except String (Schedule × Nat × List Course) :=
  match assignList rooms unavail courses ⟨schedule, 0⟩ [] with
  | Except.error e => Except.error e
  | Except.ok (st, unassigned) => Except.ok (st.schedule, st.periods, unassigned)

/-- The grid built at lines 27-32: for `period` from 1 to `Math.floor(1000/days)`
(outer) and `day` from 1 to `days` (inner), one empty occupancy list per key,
in that creation order. -/
def initSchedule (days : Nat) : Schedule :=
  ((List.range (1000 / days)).map (fun p =>
    (List.range days).map (fun d => ((⟨d + 1, p + 1⟩ : Slot), ([] : List Course))))).flatten

/-- The per-course sum of `calculateConflicts` (lines 52-53 / 58-59): weight
`w` for every other course in conflict.  JS compares object references
(`other !== course`); ingestion gives every course object a distinct `id`
(line 191), so reference inequality is `id` inequality. -/
def courseConflictCount (courses : List Course) (w : Nat) (c : Course) : Nat :=
  courses.foldl (fun sum o => if o.id ≠ c.id ∧ conflict c o then sum + w else sum) 0

/-- `calculateConflicts(courses, unavail)` of lines 49-62: weight 2 plus the
length of the teacher's unavailability list when a map is supplied, else
weight 1.  The in-place field writes become a `map`. -/
def calculateConflicts (courses : List Course) (unavail : Option Unavail) :
    List Course :=
  match unavail with
  | some u => courses.map (fun c =>
      { c with conflicts :=
          courseConflictCount courses 2 c + ((lookupTeacher u c.teacher).getD []).length })
  | none => courses.map (fun c =>
      { c with conflicts := courseConflictCount courses 1 c })

/-- The order the comparator of line 36 sorts by:
`priority` ascending, then `conflicts` descending, then `id` ascending. -/
def courseLE (a b : Course) : Prop :=
  a.priority < b.priority ∨
    (a.priority = b.priority ∧
      (b.conflicts < a.conflicts ∨ (b.conflicts = a.conflicts ∧ a.id ≤ b.id)))

instance instDecCourseLE : DecidableRel courseLE := fun a b =>
  inferInstanceAs (Decidable (a.priority < b.priority ∨
    (a.priority = b.priority ∧
      (b.conflicts < a.conflicts ∨ (b.conflicts = a.conflicts ∧ a.id ≤ b.id)))))

/-- `courses.sort(comparator)` of line 36.  `Array.prototype.sort` with this
comparator is a stable sort by `courseLE`; insertion sort is the stable
sort of the embedding (under the unique-`id` hypothesis of C5 any two
sorts by `courseLE` agree, so the choice of stable algorithm is immaterial). -/
def sortCourses (courses : List Course) : List Course :=
  List.insertionSort courseLE courses

/-- The body of `scheduler`'s `try` block (lines 27-39): build the grid,
score, sort, allocate. -/
def schedulerInner (courses : List Course) (days : Nat) (rooms : Option Nat)
    (unavail : Option Unavail) : Except String (Schedule × Nat × List Course) :=
  assignCourses (sortCourses (calculateConflicts courses unavail))
    (initSchedule days) rooms unavail

/-- The 4-tuple `scheduler` returns (lines 43 and 45). -/
structure SchedResult where
  schedule : Schedule
  periods : Nat
  unassigned : List Course
  error : Option String
deriving DecidableEq

/-- `scheduler(courses, days, rooms, unavail)` of lines 24-47: on normal
completion the error string is set iff `unassigned` is non-empty (line 41);
the `catch` turns any exception into an empty result with an error
message (line 45). -/
def scheduler (courses : List Course) (days : Nat) (rooms : Option Nat)
    (unavail : Option Unavail) : SchedResult :=
  match schedulerInner courses days rooms unavail with
  | Except.ok (sched, periods, unassigned) =>
    ⟨sched, periods, unassigned,
      if unassigned.length > 0 then some "Unable to schedule all classes." else none⟩
  | Except.error e =>
    ⟨[], 0, [], some ("An unexpected error occurred during scheduling: " ++ e)⟩

/-- Outcome of submitting the form: either the pre-run validation error or a
scheduler result. -/
inductive RunOutcome where
  | configError : String → RunOutcome
  | result : SchedResult → RunOutcome
deriving DecidableEq

/-- The `rooms !== null && rooms < 1` leg of the check at line 134. -/
def roomsInvalid : Option Int → Bool
  | none => false
  | some r => decide (r < 1)

/-- The submit handler's validation and engine call (lines 128-146): the
check at line 134 rejects `days < 1 || days > 7 || (rooms !== null && rooms < 1)`
before the engine (and hence the grid) is ever touched; otherwise the
engine runs.  `days`/`rooms` are the `parseInt` results, hence `Int`. -/
def handleSubmit (days : Int) (rooms : Option Int) (courses : List Course)
    (unavail : Option Unavail) : RunOutcome :=
  if days < 1 ∨ 7 < days ∨ roomsInvalid rooms then
    RunOutcome.configError "Invalid value for days or rooms"
  else
    RunOutcome.result (scheduler courses days.toNat (rooms.map Int.toNat) unavail)

/-- Modelled from the spec (§4.1 `maxPeriodUsed`): the highest period index
among slots with non-empty occupancy, 0 if none.  This is the spec-side
definition that claim C7 compares the engine's incremental `periods`
counter against. -/
def maxPeriodUsed : Schedule → Nat
  | [] => 0
  | e :: rest =>
    if e.2.isEmpty then maxPeriodUsed rest
    else max e.1.period (maxPeriodUsed rest)

/-- A state predicate preserved by every successful `assign`. -/
def StepPreserved (rooms : Option Nat) (unavail : Option Unavail)
    (P : AState → Prop) : Prop :=
  ∀ st c slot st', assign rooms unavail st c slot = Except.ok (true, st') → P st → P st'

instance : IsTotal Course courseLE := by
  constructor
  intro a b
  unfold courseLE
  omega

instance : IsTrans Course courseLE := by
  constructor
  intro a b c h1 h2
  unfold courseLE at h1 h2 ⊢
  omega

/-! ### Concrete inputs used in witnesses, counterexamples and scenarios -/

/-- Scenario B of the spec: one course, 3 sessions, no preferences. -/
def scenB : Course := ⟨0, "B", "T1", ["S1"], 3, 2, [], 0⟩

/-- A 1-session course, teacher T1, section S1, no preferences. -/
def cA : Course := ⟨0, "A", "T1", ["S1"], 1, 2, [], 0⟩

/-- A 1-session course, teacher T2, section S2, no preferences; does not
conflict with `cA`. -/
def cB : Course := ⟨1, "Bc", "T2", ["S2"], 1, 2, [], 0⟩

/-- Unavailability input: teacher T1 cannot take slot (1,1). -/
def uA : Unavail := [("T1", [⟨1, 1⟩])]

/-- A one-slot state whose only slot already holds `cA`. -/
def stCap : AState := ⟨[(⟨1, 1⟩, [cA])], 0⟩

/-- A course whose sole preferred slot (0,0) is not a grid key. -/
def cErr : Course := ⟨0, "X", "T1", ["S1"], 1, 1, [⟨0, 0⟩], 0⟩

/-- A course preferring (1,1) and then the non-key slot (2,5); its single
session is satisfied by (1,1), so (2,5) is never attempted. -/
def cPref : Course := ⟨0, "P", "T1", ["S1"], 1, 1, [⟨1, 1⟩, ⟨2, 5⟩], 0⟩

/-- A course placed first via its preference (1,1). -/
def cW : Course := ⟨0, "W", "T1", ["S1"], 1, 1, [⟨1, 1⟩], 0⟩

/-- A course whose sole preference (0,0) is attempted and throws. -/
def cY : Course := ⟨1, "Y", "T2", ["S2"], 1, 1, [⟨0, 0⟩], 0⟩

/-- Any concrete course, used to exhibit self-conflict. -/
def cSelf : Course := ⟨0, "S", "T1", ["S1"], 1, 2, [], 0⟩

/-- A course whose sole preference (0,0) is not a grid key and whose teacher
is unavailable exactly at that token (`uZ`).  Its `conflicts` field is set to
the value scoring recomputes (0 pairwise + 1 unavailable slot), so the scored
course equals the literal. -/
def cZ : Course := ⟨0, "Z", "TZ", ["SZ"], 1, 1, [⟨0, 0⟩], 1⟩

/-- Unavailability input: teacher TZ cannot take the (non-key) token (0,0). -/
def uZ : Unavail := [("TZ", [⟨0, 0⟩])]

/-! ### Basic lemmas about the embedded operations -/

theorem lookupSlot_mem {sched : Schedule} {s : Slot} {occ : List Course}
    (h : lookupSlot sched s = some occ) : (s, occ) ∈ sched := by
  induction sched with
  | nil => simp [lookupSlot] at h
  | cons e rest ih =>
    rw [lookupSlot] at h
    split at h
    · next heq =>
      cases h
      subst heq
      exact List.mem_cons_self _ _
    · exact List.mem_cons_of_mem _ (ih h)

theorem lookupSlot_updateSlot (sched : Schedule) (slot : Slot) (c : Course) (s : Slot) :
    lookupSlot (updateSlot sched slot c) s =
      if s = slot then (lookupSlot sched s).map (fun occ => occ ++ [c])
      else lookupSlot sched s := by
  induction sched with
  | nil => by_cases hs : s = slot <;> simp [lookupSlot, updateSlot, hs]
  | cons e rest ih =>
    obtain ⟨e1, e2⟩ := e
    show lookupSlot ((if e1 = slot then (e1, e2 ++ [c]) else (e1, e2)) :: updateSlot rest slot c) s
      = _
    by_cases he : e1 = slot
    · subst he
      by_cases hs : e1 = s
      · subst hs
        simp [lookupSlot]
      · have hss : ¬ s = e1 := fun h => hs h.symm
        simp [lookupSlot, hs, hss, ih]
    · by_cases hs : e1 = s
      · subst hs
        have hss : ¬ e1 = slot := he
        simp [lookupSlot, he, hss]
      · simp [lookupSlot, hs, he, ih]

theorem updateSlot_not_key {sched : Schedule} {slot : Slot} (c : Course)
    (h : lookupSlot sched slot = none) : updateSlot sched slot c = sched := by
  induction sched with
  | nil => rfl
  | cons e rest ih =>
    rw [lookupSlot] at h
    split at h
    · exact absurd h (by simp)
    · next hne =>
      show (if e.1 = slot then (e.1, e.2 ++ [c]) else e) :: updateSlot rest slot c = e :: rest
      rw [if_neg hne, ih h]

theorem maxPeriodUsed_updateSlot {sched : Schedule} {slot : Slot} {occ : List Course}
    (c : Course) (h : lookupSlot sched slot = some occ) :
    maxPeriodUsed (updateSlot sched slot c) = max (maxPeriodUsed sched) slot.period := by
  induction sched generalizing occ with
  | nil => simp [lookupSlot] at h
  | cons e rest ih =>
    rw [lookupSlot] at h
    by_cases he : e.1 = slot
    · have hu : updateSlot (e :: rest) slot c = (e.1, e.2 ++ [c]) :: updateSlot rest slot c := by
        simp [updateSlot, he]
      rw [hu, maxPeriodUsed, maxPeriodUsed]
      have hne : ((e.2 ++ [c]).isEmpty) = false := by simp
      cases hrest : lookupSlot rest slot with
      | none =>
        rw [updateSlot_not_key c hrest, he]
        cases h2 : e.2.isEmpty <;> simp [hne, h2] <;> omega
      | some occ2 =>
        rw [ih hrest, he]
        cases h2 : e.2.isEmpty <;> simp [hne, h2] <;> omega
    · rw [if_neg he] at h
      have hu : updateSlot (e :: rest) slot c = e :: updateSlot rest slot c := by
        simp [updateSlot, he]
      rw [hu, maxPeriodUsed, maxPeriodUsed, ih h]
      cases h2 : e.2.isEmpty <;> simp [h2] <;> omega

theorem initSchedule_snd_nil {days : Nat} {e : Slot × List Course}
    (h : e ∈ initSchedule days) : e.2 = [] := by
  unfold initSchedule at h
  simp only [List.mem_flatten, List.mem_map] at h
  obtain ⟨l, ⟨p, _, rfl⟩, hel⟩ := h
  obtain ⟨d, _, rfl⟩ := List.mem_map.mp hel
  rfl

theorem initSchedule_lookup {days : Nat} {s : Slot} {occ : List Course}
    (h : lookupSlot (initSchedule days) s = some occ) : occ = [] :=
  initSchedule_snd_nil (lookupSlot_mem h)

theorem maxPeriodUsed_all_empty {sched : Schedule}
    (h : ∀ e ∈ sched, e.2 = ([] : List Course)) : maxPeriodUsed sched = 0 := by
  induction sched with
  | nil => rfl
  | cons e rest ih =>
    rw [maxPeriodUsed]
    have he : e.2.isEmpty = true := by rw [h e (List.mem_cons_self _ _)]; rfl
    rw [he]
    exact ih (fun x hx => h x (List.mem_cons_of_mem _ hx))

theorem conflict_iff (c1 c2 : Course) :
    conflict c1 c2 = true ↔
      c1.teacher = c2.teacher ∨ ∃ s, s ∈ c1.sections ∧ s ∈ c2.sections := by
  simp [conflict]

theorem conflict_self (c : Course) : conflict c c = true := by
  simp [conflict]

theorem conflict_symm (c1 c2 : Course) : conflict c1 c2 = conflict c2 c1 := by
  cases h1 : conflict c1 c2 <;> cases h2 : conflict c2 c1 <;> try rfl
  · rw [conflict_iff] at h2
    have : conflict c1 c2 = true := by
      rw [conflict_iff]
      rcases h2 with h | ⟨s, hs1, hs2⟩
      · exact Or.inl h.symm
      · exact Or.inr ⟨s, hs2, hs1⟩
    rw [h1] at this
    exact absurd this (by simp)
  · rw [conflict_iff] at h1
    have : conflict c2 c1 = true := by
      rw [conflict_iff]
      rcases h1 with h | ⟨s, hs1, hs2⟩
      · exact Or.inl h.symm
      · exact Or.inr ⟨s, hs2, hs1⟩
    rw [h2] at this
    exact absurd this (by simp)

/-! ### Characterization of `assign` -/

theorem assign_ok_false {rooms : Option Nat} {unavail : Option Unavail} {st st' : AState}
    {c : Course} {slot : Slot}
    (h : assign rooms unavail st c slot = Except.ok (false, st')) : st' = st := by
  unfold assign at h
  split at h
  · split at h
    · cases h
    · split at h
      · cases h; rfl
      · cases h
  · split at h
    · cases h; rfl
    · split at h
      · cases h; rfl
      · split at h
        · cases h; rfl
        · cases h

theorem assign_ok_true {rooms : Option Nat} {unavail : Option Unavail} {st st' : AState}
    {c : Course} {slot : Slot}
    (h : assign rooms unavail st c slot = Except.ok (true, st')) :
    ∃ occ, lookupSlot st.schedule slot = some occ ∧
      ¬(rooms.getD 0 ≠ 0 ∧ occ.length = rooms.getD 0) ∧
      unavailHas unavail c.teacher slot = false ∧
      (∀ sc ∈ occ, conflict c sc = false) ∧
      st' = ⟨updateSlot st.schedule slot c, max st.periods slot.period⟩ := by
  unfold assign at h
  split at h
  · split at h
    · cases h
    · split at h
      · cases h
      · cases h
  · next occ hl =>
    refine ⟨occ, hl, ?_⟩
    split at h
    · cases h
    · next hcap =>
      split at h
      · cases h
      · next hunav =>
        split at h
        · cases h
        · next hconf =>
          cases h
          refine ⟨hcap, ?_, ?_, rfl⟩
          · simpa using hunav
          · intro sc hsc
            by_contra hc
            exact hconf (by
              simp only [List.any_eq_true]
              exact ⟨sc, hsc, by simpa using hc⟩)

/-! ### Generic preservation of state predicates through the allocation loops -/

theorem allocPrefs_preserves {rooms : Option Nat} {unavail : Option Unavail}
    {P : AState → Prop} (hs : StepPreserved rooms unavail P) (c : Course) :
    ∀ (slots : List Slot) (allotted : Nat) (st : AState) (res : Nat × AState),
      allocPrefs rooms unavail c slots allotted st = Except.ok res → P st → P res.2 := by
  intro slots
  induction slots with
  | nil =>
    intro allotted st res h hP
    rw [allocPrefs] at h
    cases h
    exact hP
  | cons slot rest ih =>
    intro allotted st res h hP
    rw [allocPrefs] at h
    split at h
    · cases h
    · next st' ha =>
      have hP' := hs st c slot st' ha hP
      split at h
      · cases h; exact hP'
      · exact ih _ _ _ h hP'
    · next st' ha =>
      cases assign_ok_false ha
      exact ih _ _ _ h hP

theorem allocOthers_preserves {rooms : Option Nat} {unavail : Option Unavail}
    {P : AState → Prop} (hs : StepPreserved rooms unavail P) (c : Course) :
    ∀ (slots : List Slot) (allotted : Nat) (st : AState) (res : Nat × AState),
      allocOthers rooms unavail c slots allotted st = Except.ok res → P st → P res.2 := by
  intro slots
  induction slots with
  | nil =>
    intro allotted st res h hP
    rw [allocOthers] at h
    cases h
    exact hP
  | cons slot rest ih =>
    intro allotted st res h hP
    rw [allocOthers] at h
    split at h
    · exact ih _ _ _ h hP
    · split at h
      · cases h
      · next st' ha =>
        have hP' := hs st c slot st' ha hP
        split at h
        · cases h; exact hP'
        · exact ih _ _ _ h hP'
      · next st' ha =>
        cases assign_ok_false ha
        exact ih _ _ _ h hP

theorem assignOne_preserves {rooms : Option Nat} {unavail : Option Unavail}
    {P : AState → Prop} (hs : StepPreserved rooms unavail P) (st : AState) (c : Course)
    {res : Nat × AState} (h : assignOne rooms unavail st c = Except.ok res) (hP : P st) :
    P res.2 := by
  unfold assignOne at h
  split at h
  · cases h
  · next allotted st1 h1 =>
    have hP1 : P st1 := allocPrefs_preserves hs c _ _ _ _ h1 hP
    split at h
    · exact allocOthers_preserves hs c _ _ _ _ h hP1
    · cases h; exact hP1

theorem assignList_preserves {rooms : Option Nat} {unavail : Option Unavail}
    {P : AState → Prop} (hs : StepPreserved rooms unavail P) :
    ∀ (courses : List Course) (st : AState) (unassigned : List Course)
      (res : AState × List Course),
      assignList rooms unavail courses st unassigned = Except.ok res → P st → P res.1 := by
  intro courses
  induction courses with
  | nil =>
    intro st unassigned res h hP
    rw [assignList] at h
    cases h
    exact hP
  | cons c rest ih =>
    intro st unassigned res h hP
    rw [assignList] at h
    split at h
    · cases h
    · next allotted st' h1 =>
      exact ih _ _ _ h (assignOne_preserves hs st c h1 hP)

theorem schedulerInner_ok_inv {courses : List Course} {days : Nat} {rooms : Option Nat}
    {unavail : Option Unavail} {P : AState → Prop} {sched : Schedule} {p : Nat}
    {un : List Course}
    (hs : StepPreserved rooms unavail P)
    (hinit : P ⟨initSchedule days, 0⟩)
    (h : schedulerInner courses days rooms unavail = Except.ok (sched, p, un)) :
    P ⟨sched, p⟩ := by
  unfold schedulerInner assignCourses at h
  split at h
  · cases h
  · next st unassigned hl =>
    cases h
    exact assignList_preserves hs _ _ _ _ hl hinit

/-! ### The four run invariants, as `assign`-step preservation lemmas -/

theorem step_conflictFree {rooms : Option Nat} {unavail : Option Unavail} :
    StepPreserved rooms unavail (fun st => ∀ s occ,
      lookupSlot st.schedule s = some occ →
        occ.Pairwise (fun a b => conflict a b = false)) := by
  intro st c slot st' ha hP s occ hl
  obtain ⟨occ0, hocc0, _, _, hconf, rfl⟩ := assign_ok_true ha
  rw [show (⟨updateSlot st.schedule slot c, max st.periods slot.period⟩ : AState).schedule
      = updateSlot st.schedule slot c from rfl, lookupSlot_updateSlot] at hl
  by_cases hse : s = slot
  · subst hse
    rw [if_pos rfl, hocc0] at hl
    simp only [Option.map_some'] at hl
    cases hl
    rw [List.pairwise_append]
    refine ⟨hP s occ0 hocc0, List.pairwise_singleton _ _, ?_⟩
    intro a ha' b hb
    simp only [List.mem_singleton] at hb
    subst hb
    rw [conflict_symm]
    exact hconf a ha'
  · rw [if_neg hse] at hl
    exact hP s occ hl

theorem step_capacity {unavail : Option Unavail} (R : Nat) (hR : 1 ≤ R) :
    StepPreserved (some R) unavail (fun st => ∀ s occ,
      lookupSlot st.schedule s = some occ → occ.length ≤ R) := by
  intro st c slot st' ha hP s occ hl
  obtain ⟨occ0, hocc0, hcap, _, _, rfl⟩ := assign_ok_true ha
  rw [show (⟨updateSlot st.schedule slot c, max st.periods slot.period⟩ : AState).schedule
      = updateSlot st.schedule slot c from rfl, lookupSlot_updateSlot] at hl
  by_cases hse : s = slot
  · subst hse
    rw [if_pos rfl, hocc0] at hl
    simp only [Option.map_some'] at hl
    cases hl
    have h0 := hP s occ0 hocc0
    simp only [Option.getD_some] at hcap
    simp only [List.length_append, List.length_singleton]
    omega
  · rw [if_neg hse] at hl
    exact hP s occ hl

theorem step_unavailability {rooms : Option Nat} {unavail : Option Unavail} :
    StepPreserved rooms unavail (fun st => ∀ s occ,
      lookupSlot st.schedule s = some occ →
        ∀ c ∈ occ, unavailHas unavail c.teacher s = false) := by
  intro st c slot st' ha hP s occ hl
  obtain ⟨occ0, hocc0, _, hunav, _, rfl⟩ := assign_ok_true ha
  rw [show (⟨updateSlot st.schedule slot c, max st.periods slot.period⟩ : AState).schedule
      = updateSlot st.schedule slot c from rfl, lookupSlot_updateSlot] at hl
  by_cases hse : s = slot
  · subst hse
    rw [if_pos rfl, hocc0] at hl
    simp only [Option.map_some'] at hl
    cases hl
    intro c' hc'
    rcases List.mem_append.mp hc' with hmem | hmem
    · exact hP s occ0 hocc0 c' hmem
    · simp only [List.mem_singleton] at hmem
      subst hmem
      exact hunav
  · rw [if_neg hse] at hl
    exact hP s occ hl

theorem step_periods {rooms : Option Nat} {unavail : Option Unavail} :
    StepPreserved rooms unavail (fun st => st.periods = maxPeriodUsed st.schedule) := by
  intro st c slot st' ha hP
  obtain ⟨occ0, hocc0, _, _, _, rfl⟩ := assign_ok_true ha
  show max st.periods slot.period = maxPeriodUsed (updateSlot st.schedule slot c)
  rw [maxPeriodUsed_updateSlot c hocc0, hP]

/-! ### Claim theorems: invariants of the run result -/

/-- Claim C1: in every run result (`days ≥ 1`, the range on which the JS grid
loop terminates), no slot's occupancy list contains two distinct courses in
conflict: every pair of distinct occupants of any slot is conflict-free in
both directions. -/
theorem scheduler_no_conflict (courses : List Course) (days : Nat) (rooms : Option Nat)
    (unavail : Option Unavail) (hdays : 1 ≤ days) :
    ∀ s occ, lookupSlot (scheduler courses days rooms unavail).schedule s = some occ →
      occ.Pairwise (fun c1 c2 => conflict c1 c2 = false ∧ conflict c2 c1 = false) := by
  intro s occ hl
  unfold scheduler at hl
  split at hl
  · next sched p un hin =>
    have hP := schedulerInner_ok_inv (P := fun st => ∀ s occ,
        lookupSlot st.schedule s = some occ →
          occ.Pairwise (fun a b => conflict a b = false))
      step_conflictFree
      (fun s occ hl0 => by rw [initSchedule_lookup hl0]; exact List.Pairwise.nil) hin
    exact (hP s occ hl).imp (fun hab => ⟨hab, (conflict_symm _ _).trans hab⟩)
  · next e hin =>
    simp [lookupSlot] at hl

/-- Claim C3: with a configured room capacity `R ≥ 1` (and `days ≥ 1`), every
slot of the run result holds at most `R` courses, and the capacity check is
the first feasibility check: a slot already holding exactly `R` courses makes
`assign` reject immediately (state unchanged), regardless of the
unavailability and conflict checks that follow it. -/
theorem scheduler_capacity (courses : List Course) (days : Nat)
    (unavail : Option Unavail) (R : Nat) (hdays : 1 ≤ days) (hR : 1 ≤ R) :
    (∀ s occ, lookupSlot (scheduler courses days (some R) unavail).schedule s = some occ →
        occ.length ≤ R) ∧
    (∀ st c s occ, lookupSlot st.schedule s = some occ → occ.length = R →
        assign (some R) unavail st c s = Except.ok (false, st)) := by
  constructor
  · intro s occ hl
    unfold scheduler at hl
    split at hl
    · next sched p un hin =>
      have hP := schedulerInner_ok_inv (P := fun st => ∀ s occ,
          lookupSlot st.schedule s = some occ → occ.length ≤ R)
        (step_capacity R hR)
        (fun s occ hl0 => by rw [initSchedule_lookup hl0]; exact Nat.zero_le R) hin
      exact hP s occ hl
    · next e hin =>
      simp [lookupSlot] at hl
  · intro st c s occ hlk hlen
    unfold assign
    rw [hlk]
    show (if (((some R).getD 0 ≠ 0) ∧ occ.length = (some R).getD 0)
        then Except.ok (false, st) else _) = Except.ok (false, st)
    rw [if_pos]
    refine ⟨?_, ?_⟩
    · simp only [Option.getD_some]
      omega
    · simpa using hlen

/-- Claim C4: if the unavailability map lists slot `s` for teacher `t`, then
no course taught by `t` appears in slot `s` of the run result (`days ≥ 1`). -/
theorem scheduler_unavailability (courses : List Course) (days : Nat)
    (rooms : Option Nat) (u : Unavail) (t : String) (tslots : List Slot) (s : Slot)
    (hdays : 1 ≤ days) (ht : lookupTeacher u t = some tslots) (hs : s ∈ tslots) :
    ∀ occ, lookupSlot (scheduler courses days rooms (some u)).schedule s = some occ →
      ∀ c ∈ occ, c.teacher ≠ t := by
  intro occ hl c' hc' hteq
  unfold scheduler at hl
  split at hl
  · next sched p un hin =>
    have hP := schedulerInner_ok_inv (P := fun st => ∀ s occ,
        lookupSlot st.schedule s = some occ →
          ∀ c ∈ occ, unavailHas (some u) c.teacher s = false)
      step_unavailability
      (fun s occ hl0 => by rw [initSchedule_lookup hl0]; intro c hc; cases hc) hin
    have hfalse := hP s occ hl c' hc'
    rw [hteq] at hfalse
    simp only [unavailHas, ht] at hfalse
    simp [hs] at hfalse
  · next e hin =>
    simp [lookupSlot] at hl

/-- Claim C7: the `periods` value of the run result equals the maximum period
index over all slots whose occupancy list is non-empty, and 0 when none is
(`maxPeriodUsed` is that spec-side maximum); this holds on the normal path
and trivially on the caught-exception path, for every `days ≥ 1`. -/
theorem scheduler_periods_eq (courses : List Course) (days : Nat)
    (rooms : Option Nat) (unavail : Option Unavail) (hdays : 1 ≤ days) :
    (scheduler courses days rooms unavail).periods =
      maxPeriodUsed (scheduler courses days rooms unavail).schedule := by
  unfold scheduler
  split
  · next sched p un hin =>
    show p = maxPeriodUsed sched
    exact schedulerInner_ok_inv step_periods
      ((maxPeriodUsed_all_empty (fun e he => initSchedule_snd_nil he)).symm) hin
  · rfl

/-! ### The comparator order and claim C5 -/

/-- Two sorted permutations of each other are equal, assuming antisymmetry of
the order only on the members of the lists (here: supplied by unique ids). -/
theorem sorted_unique {α : Type} {r : α → α → Prop} :
    ∀ (l₁ l₂ : List α), l₁.Perm l₂ → l₁.Sorted r → l₂.Sorted r →
      (∀ a, a ∈ l₁ → ∀ b, b ∈ l₁ → r a b → r b a → a = b) → l₁ = l₂
  | [], l₂, p, _, _, _ => p.nil_eq
  | a :: t₁, [], p, _, _, _ => absurd p.length_eq (by simp)
  | a :: t₁, b :: t₂, p, s₁, s₂, anti => by
    have hab : a = b := by
      have ha2 : a ∈ b :: t₂ := p.subset (List.mem_cons_self a t₁)
      rcases List.mem_cons.mp ha2 with h | h
      · exact h
      · have hb1 : b ∈ a :: t₁ := p.symm.subset (List.mem_cons_self b t₂)
        rcases List.mem_cons.mp hb1 with h' | h'
        · exact h'.symm
        · have hba : r b a := (List.sorted_cons.mp s₂).1 a h
          have hab' : r a b := (List.sorted_cons.mp s₁).1 b h'
          exact anti a (List.mem_cons_self a t₁) b (List.mem_cons_of_mem _ h') hab' hba
    subst hab
    have ht := sorted_unique t₁ t₂ p.cons_inv (List.sorted_cons.mp s₁).2
      (List.sorted_cons.mp s₂).2
      (fun x hx y hy => anti x (List.mem_cons_of_mem _ hx) y (List.mem_cons_of_mem _ hy))
    rw [ht]

/-- Scoring rewrites only the `conflicts` field, so ids survive it. -/
theorem calculateConflicts_id_pairwise {courses : List Course} (unavail : Option Unavail)
    (h : courses.Pairwise (fun a b => a.id ≠ b.id)) :
    (calculateConflicts courses unavail).Pairwise (fun a b => a.id ≠ b.id) := by
  unfold calculateConflicts
  cases unavail <;> simpa [List.pairwise_map] using h

/-- On a list with pairwise distinct ids, `courseLE` is antisymmetric. -/
theorem courseLE_antisymm_on {l : List Course}
    (h : l.Pairwise (fun a b => a.id ≠ b.id)) :
    ∀ a, a ∈ l → ∀ b, b ∈ l → courseLE a b → courseLE b a → a = b := by
  intro a ha b hb hab hba
  by_contra hne
  have hsymm : Symmetric (fun a b : Course => a.id ≠ b.id) := by
    intro x y hxy heq
    exact hxy heq.symm
  have hids : a.id ≠ b.id := h.forall hsymm ha hb hne
  unfold courseLE at hab hba
  omega

/-- Claim C5: before allocation the engine sorts the scored course list by
`priority` ascending, then `conflicts` descending, then `id` ascending
(`courseLE`); when ids are pairwise distinct this order is antisymmetric on
the list, so the sorted sequence is the unique sorted permutation of the
scored list. -/
theorem scheduler_sort_order (courses : List Course) (unavail : Option Unavail)
    (hids : courses.Pairwise (fun a b => a.id ≠ b.id)) :
    (sortCourses (calculateConflicts courses unavail)).Sorted courseLE ∧
    (sortCourses (calculateConflicts courses unavail)).Perm
      (calculateConflicts courses unavail) ∧
    ∀ l, l.Perm (calculateConflicts courses unavail) → l.Sorted courseLE →
      l = sortCourses (calculateConflicts courses unavail) := by
  have hscored := calculateConflicts_id_pairwise unavail hids
  refine ⟨List.sorted_insertionSort courseLE _, List.perm_insertionSort courseLE _, ?_⟩
  intro l hperm hsort
  have hmem : ∀ a, a ∈ l → a ∈ calculateConflicts courses unavail :=
    fun a ha => hperm.subset ha
  exact sorted_unique l (sortCourses (calculateConflicts courses unavail))
    (hperm.trans (List.perm_insertionSort courseLE _).symm)
    hsort (List.sorted_insertionSort courseLE _)
    (fun a ha b hb => courseLE_antisymm_on hscored a (hmem a ha) b (hmem b hb))

/-! ### Claims C2, C6, C8, C9, C10 -/

/-- Claim C2 (counterexample): the claim asserts `conflict` is irreflexive,
but a course always conflicts with itself — its teacher equals itself — so
`conflict(c, c)` is true at the concrete course `cSelf`. -/
theorem conflict_not_irreflexive : conflict cSelf cSelf = true := by decide

/-- Claim C2 (amended): `conflict(c1, c2)` is true iff the teachers are equal
or the section sets intersect; the predicate is symmetric; and it is
reflexive (not irreflexive): `conflict(c, c)` is true for every course. -/
theorem conflict_characterization (c1 c2 c : Course) :
    (conflict c1 c2 = true ↔
      (c1.teacher = c2.teacher ∨ ∃ s, s ∈ c1.sections ∧ s ∈ c2.sections)) ∧
    conflict c1 c2 = conflict c2 c1 ∧
    conflict c c = true :=
  ⟨conflict_iff c1 c2, conflict_symm c1 c2, conflict_self c⟩

set_option maxRecDepth 10000 in
/-- Claim C6: phase 2 attempts slots in the grid's creation order (period
outer ascending, day inner ascending) and stops once the course reaches its
required sessions.  With `days = 1`, one 3-session course with no preferences
lands in periods 1, 2, 3 (slot (1,4) stays empty) with nothing unassigned;
with `days = 2` the same course lands in (1,1), (2,1), (1,2) — days inner —
leaving (2,2) empty. -/
theorem scheduler_fallback_order :
    ((scheduler [scenB] 1 none none).periods = 3 ∧
     (scheduler [scenB] 1 none none).unassigned = [] ∧
     (scheduler [scenB] 1 none none).error = none ∧
     lookupSlot (scheduler [scenB] 1 none none).schedule ⟨1, 1⟩ = some [scenB] ∧
     lookupSlot (scheduler [scenB] 1 none none).schedule ⟨1, 2⟩ = some [scenB] ∧
     lookupSlot (scheduler [scenB] 1 none none).schedule ⟨1, 3⟩ = some [scenB] ∧
     lookupSlot (scheduler [scenB] 1 none none).schedule ⟨1, 4⟩ = some []) ∧
    ((scheduler [scenB] 2 none none).periods = 2 ∧
     lookupSlot (scheduler [scenB] 2 none none).schedule ⟨1, 1⟩ = some [scenB] ∧
     lookupSlot (scheduler [scenB] 2 none none).schedule ⟨2, 1⟩ = some [scenB] ∧
     lookupSlot (scheduler [scenB] 2 none none).schedule ⟨1, 2⟩ = some [scenB] ∧
     lookupSlot (scheduler [scenB] 2 none none).schedule ⟨2, 2⟩ = some []) := by
  decide

/-- Claim C8: inputs with `days < 1` are rejected by the submit handler's
validation with the configuration-error message, before the engine (and
hence the grid) is ever invoked: the outcome is `configError`, not a
scheduler result. -/
theorem handleSubmit_rejects_invalid_days (days : Int) (rooms : Option Int)
    (courses : List Course) (unavail : Option Unavail) (h : days < 1) :
    handleSubmit days rooms courses unavail =
      RunOutcome.configError "Invalid value for days or rooms" := by
  unfold handleSubmit
  rw [if_pos (Or.inl h)]

/-- Claim C9: any exception escaping the run body is caught at the engine's
top level and becomes a result with an empty schedule, 0 periods, an empty
unassigned list, and a non-null error string; `scheduler` is total, so
nothing is rethrown past the engine boundary. -/
theorem scheduler_catches_exceptions (courses : List Course) (days : Nat)
    (rooms : Option Nat) (unavail : Option Unavail) (e : String)
    (h : schedulerInner courses days rooms unavail = Except.error e) :
    scheduler courses days rooms unavail =
      ⟨[], 0, [], some ("An unexpected error occurred during scheduling: " ++ e)⟩ := by
  unfold scheduler
  rw [h]

set_option maxRecDepth 10000 in
/-- Claim C10 (counterexample): `cPref` has the preferred slot (2,5), which is
not a key of the `days = 1` grid, yet the run does not fail: the course's
single session is satisfied by its earlier preference (1,1), the bad slot is
never attempted, and the run returns a normal result (placement kept,
`periods = 1`, no unassigned courses, null error). -/
theorem pref_out_of_grid_benign :
    lookupSlot (initSchedule 1) ⟨2, 5⟩ = none ∧
    (scheduler [cPref] 1 none none).error = none ∧
    (scheduler [cPref] 1 none none).periods = 1 ∧
    (scheduler [cPref] 1 none none).unassigned = [] ∧
    lookupSlot (scheduler [cPref] 1 none none).schedule ⟨1, 1⟩ = some [cPref] := by
  decide

set_option maxRecDepth 10000 in
/-- Claim C10 (amended): attempting a slot that is not a grid key is fully
characterized by the first conjunct: with a truthy room limit the `.length`
read of line 69 throws unconditionally — even when the teacher's
unavailability list contains the token — and with no room limit it throws at
the conflict-loop access unless the unavailability check of line 70, which
precedes that access and touches nothing, rejects the pair harmlessly
(result `false`, state unchanged, run going).  End to end: `[cW, cY]` places
`cW` at (1,1), then `cY`'s attempt at the non-key (0,0) throws and the whole
run collapses, discarding `cW`'s placement; `[cZ]` with `rooms = 1` collapses
with the `.length` error although TZ is unavailable exactly at (0,0); and
`[cZ]` without a room limit survives the attempt and completes normally,
keeping its placement at (1,1). -/
theorem pref_out_of_grid_attempt_characterization :
    (∀ (rooms : Option Nat) (unavail : Option Unavail) (st : AState) (c : Course)
        (slot : Slot), lookupSlot st.schedule slot = none →
        assign rooms unavail st c slot =
          (if rooms.getD 0 ≠ 0 then Except.error lengthErrMsg
           else if unavailHas unavail c.teacher slot then Except.ok (false, st)
           else Except.error iterErrMsg)) ∧
    scheduler [cW, cY] 1 none none =
      ⟨[], 0, [], some ("An unexpected error occurred during scheduling: " ++ iterErrMsg)⟩ ∧
    scheduler [cZ] 1 (some 1) (some uZ) =
      ⟨[], 0, [], some ("An unexpected error occurred during scheduling: " ++ lengthErrMsg)⟩ ∧
    ((scheduler [cZ] 1 none (some uZ)).error = none ∧
     (scheduler [cZ] 1 none (some uZ)).periods = 1 ∧
     (scheduler [cZ] 1 none (some uZ)).unassigned = [] ∧
     lookupSlot (scheduler [cZ] 1 none (some uZ)).schedule ⟨1, 1⟩ = some [cZ]) := by
  refine ⟨?_, by decide, by decide, by decide⟩
  intro rooms unavail st c slot hlk
  unfold assign
  rw [hlk]

/-! ### Witnesses -/

set_option maxRecDepth 10000 in
/-- Witness for C1 at a concrete run: both non-conflicting courses land in
slot (1,1) and the invariant instantiates to their pairwise
conflict-freedom. -/
theorem scheduler_no_conflict_witness :
    (1 : Nat) ≤ 1 ∧
    List.Pairwise (fun c1 c2 => conflict c1 c2 = false ∧ conflict c2 c1 = false)
      [cA, cB] :=
  ⟨by decide,
   scheduler_no_conflict [cA, cB] 1 none none (by decide) ⟨1, 1⟩ [cA, cB] (by decide)⟩

set_option maxRecDepth 10000 in
/-- Witness for C3 at a concrete run with `rooms = 1`: slot (1,1) of the
result holds one course, and `assign` rejects a second course for a full
slot without touching the state. -/
theorem scheduler_capacity_witness :
    ([cA] : List Course).length ≤ 1 ∧
    assign (some 1) none stCap cB ⟨1, 1⟩ = Except.ok (false, stCap) :=
  ⟨(scheduler_capacity [cA, cB] 1 none 1 (by decide) (by decide)).1 ⟨1, 1⟩ [cA]
      (by decide),
   (scheduler_capacity [cA, cB] 1 none 1 (by decide) (by decide)).2 stCap cB ⟨1, 1⟩
      [cA] (by decide) (by decide)⟩

set_option maxRecDepth 10000 in
/-- Witness for C4 at a concrete run: with teacher T1 unavailable at (1,1),
the occupant of (1,1) is `cB`, whose teacher the theorem shows differs
from T1. -/
theorem scheduler_unavailability_witness : cB.teacher ≠ "T1" :=
  scheduler_unavailability [cA, cB] 1 none uA "T1" [⟨1, 1⟩] ⟨1, 1⟩ (by decide)
    (by decide) (by decide) [cB] (by decide) cB (by decide)

/-- Witness for C5 at a concrete input with distinct ids: the uniqueness
conjunct pins the sorted sequence of the scored `[cB, cA]` to `[cA, cB]`. -/
theorem scheduler_sort_order_witness :
    [cA, cB] = sortCourses (calculateConflicts [cB, cA] none) :=
  (scheduler_sort_order [cB, cA] none (by decide)).2.2 [cA, cB] (by decide) (by decide)

set_option maxRecDepth 10000 in
/-- Witness for C7 at a concrete run. -/
theorem scheduler_periods_eq_witness :
    (scheduler [cA, cB] 1 none none).periods =
      maxPeriodUsed (scheduler [cA, cB] 1 none none).schedule :=
  scheduler_periods_eq [cA, cB] 1 none none (by decide)

/-- Witness for C8 at `days = 0`. -/
theorem handleSubmit_rejects_invalid_days_witness :
    handleSubmit 0 none [] none = RunOutcome.configError "Invalid value for days or rooms" :=
  handleSubmit_rejects_invalid_days 0 none [] none (by decide)

set_option maxRecDepth 10000 in
/-- Witness for C9: the run of `cErr` (preferred slot (0,0), not a grid key)
throws, and the engine converts it into the empty result with the error
string. -/
theorem scheduler_catches_exceptions_witness :
    scheduler [cErr] 1 none none =
      ⟨[], 0, [], some ("An unexpected error occurred during scheduling: " ++ iterErrMsg)⟩ :=
  scheduler_catches_exceptions [cErr] 1 none none iterErrMsg rfl

/-- Witness for the amended C10: attempting the non-key token (0,0) in an
empty schedule with a room limit throws at the `.length` read even though the
teacher is listed unavailable at that very token. -/
theorem pref_out_of_grid_attempt_characterization_witness :
    assign (some 1) (some uZ) ⟨[], 0⟩ cZ ⟨0, 0⟩ = Except.error lengthErrMsg :=
  pref_out_of_grid_attempt_characterization.1 (some 1) (some uZ) ⟨[], 0⟩ cZ ⟨0, 0⟩ rfl

end LectureScheduler
